import Mathlib

/-!
Verification of the hungrychicken bot core (src/bot.rs).

Embedding conventions:
* Rust strings are modelled as `List Char`; the modelled inputs are ASCII, where
  character count and byte count coincide, so Rust byte slicing `s[a..b]` is
  `(s.drop a).take (b - a)`.
* Machine integers (`u8` fields of `Time`, `Date`, trip day counts) are `Nat`.
  Release-build wrapping arithmetic is explicit `% 256` (`u8wadd`, `u8wsub`);
  the overflow-checked (debug build / panicking) semantics of `impl Sub for
  Time` is modelled separately by `Time.subChecked` over `Except U8Err`.
* A Rust `panic!` / `.unwrap()` on a failing parse is modelled as `none`;
  fallible parsers return `Option`.
-/

namespace HC

/-- Wrapping u8 addition, as in a Rust release build. -/
def u8wadd (a b : Nat) : Nat := (a + b) % 256

/-- Wrapping u8 subtraction `a - b`, as in a Rust release build
    (callers always supply `a b < 256`). -/
def u8wsub (a b : Nat) : Nat := (a + 256 - b) % 256

/-- Error kind of a checked u8 operation (a debug build panics here). -/
inductive U8Err where
  | underflow : U8Err
  | overflow : U8Err
deriving DecidableEq, Repr

/-- Checked u8 subtraction: `a - b` panics (underflows) in debug when `b > a`. -/
def u8csub (a b : Nat) : Except U8Err Nat :=
  if b ≤ a then .ok (a - b) else .error .underflow

/-- Checked u8 addition: `a + b` panics (overflows) in debug when the sum
    exceeds 255. -/
def u8cadd (a b : Nat) : Except U8Err Nat :=
  if a + b ≤ 255 then .ok (a + b) else .error .overflow

/-- `struct Time { hours: u8, minutes: u8 }` from src/bot.rs. -/
structure Time where
  hours : Nat
  minutes : Nat
deriving DecidableEq, Repr

/-- `impl Default for Time`: `00:00`. -/
def Time.default : Time := { hours := 0, minutes := 0 }

/-- `impl Sub for Time` from src/bot.rs, with release-build (wrapping) u8
    arithmetic.  Mirrors the source exactly: on a minute borrow, minutes get
    `60 + self.minutes - rhs.minutes` and hours lose one extra; the hour
    component is `self.hours - rhs.hours` when `rhs.hours > self.hours` and
    `12 + self.hours - rhs.hours` otherwise. -/
def Time.sub (self rhs : Time) : Time :=
  if rhs.minutes > self.minutes then
    { hours :=
        if rhs.hours > self.hours then u8wsub (u8wsub self.hours rhs.hours) 1
        else u8wsub (u8wsub (u8wadd 12 self.hours) rhs.hours) 1,
      minutes := u8wsub (u8wadd 60 self.minutes) rhs.minutes }
  else
    { hours :=
        if rhs.hours > self.hours then u8wsub self.hours rhs.hours
        else u8wsub (u8wadd 12 self.hours) rhs.hours,
      minutes := u8wsub self.minutes rhs.minutes }

/-- The hour-component expression of `impl Sub for Time`, under checked
    (debug-build) u8 arithmetic.  `borrow` is the enclosing
    `rhs.minutes > self.minutes` test; `sh`/`rh` are `self.hours`/`rhs.hours`. -/
def Time.subHours (borrow : Bool) (sh rh : Nat) : Except U8Err Nat :=
  if rh > sh then
    if borrow then do
      let x ← u8csub sh rh
      u8csub x 1
    else u8csub sh rh
  else
    if borrow then do
      let x ← u8cadd 12 sh
      let y ← u8csub x rh
      u8csub y 1
    else do
      let x ← u8cadd 12 sh
      u8csub x rh

/-- `impl Sub for Time` under checked (debug-build) u8 arithmetic: the hour
    field is evaluated first, then the minute field, as in the Rust struct
    literal. -/
def Time.subChecked (self rhs : Time) : Except U8Err Time :=
  if rhs.minutes > self.minutes then do
    let h ← Time.subHours true self.hours rhs.hours
    let x ← u8cadd 60 self.minutes
    let m ← u8csub x rhs.minutes
    pure { hours := h, minutes := m }
  else do
    let h ← Time.subHours false self.hours rhs.hours
    let m ← u8csub self.minutes rhs.minutes
    pure { hours := h, minutes := m }

/-- Rust's derived lexicographic `<` on `Time` (hours, then minutes). -/
def Time.ltb (a b : Time) : Bool :=
  Nat.blt a.hours b.hours || (Nat.beq a.hours b.hours && Nat.blt a.minutes b.minutes)

/-- Rust's derived lexicographic `<=` on `Time`. -/
def Time.leb (a b : Time) : Bool :=
  Time.ltb a b || (Nat.beq a.hours b.hours && Nat.beq a.minutes b.minutes)

/-- ASCII decimal digit, the `\d` class over the modelled inputs. -/
def isDigitChar (c : Char) : Bool := 48 ≤ c.toNat && c.toNat ≤ 57

/-- ASCII whitespace, the `\s` / `char::is_whitespace` class over the
    modelled inputs. -/
def isSpaceChar (c : Char) : Bool :=
  c == ' ' || c == '\t' || c == '\n' || c == '\r' || c.toNat == 11 || c.toNat == 12

/-- ASCII word character, the `\w` class over the modelled inputs. -/
def isWordChar (c : Char) : Bool :=
  isDigitChar c || (65 ≤ c.toNat && c.toNat ≤ 90) || (97 ≤ c.toNat && c.toNat ≤ 122) || c == '_'

/-- Numeric value of a digit string (the accumulator loop of `u8::from_str`). -/
def digitsVal (ds : List Char) : Nat :=
  ds.foldl (fun a c => 10 * a + (c.toNat - 48)) 0

/-- `str::parse::<u8>()`: an optional leading `+`, then at least one digit,
    value at most 255. -/
def parseU8 (s : List Char) : Option Nat :=
  let ds := match s with
    | c :: rest => if c == '+' then rest else s
    | [] => s
  if ds.isEmpty then none
  else if ds.all isDigitChar then
    if digitsVal ds ≤ 255 then some (digitsVal ds) else none
  else none

/-- Rust byte slice `s[a..b]` on an ASCII string. -/
def sliceChars (s : List Char) (a b : Nat) : List Char := (s.drop a).take (b - a)

/-- `impl FromStr for Time` from src/bot.rs: length 4 parses `s[0..2]` and
    `s[2..4]`; length 5 parses `s[0..2]` and `s[3..5]`; anything else errors. -/
def Time.from_str (s : List Char) : Option Time :=
  if s.length = 4 then
    match parseU8 (sliceChars s 0 2), parseU8 (sliceChars s 2 4) with
    | some h, some m => some { hours := h, minutes := m }
    | _, _ => none
  else if s.length = 5 then
    match parseU8 (sliceChars s 0 2), parseU8 (sliceChars s 3 5) with
    | some h, some m => some { hours := h, minutes := m }
    | _, _ => none
  else none

/-- `Time::from_num_str` from src/bot.rs (textually the same body as
    `FromStr::from_str`). -/
def Time.from_num_str (s : List Char) : Option Time :=
  if s.length = 4 then
    match parseU8 (sliceChars s 0 2), parseU8 (sliceChars s 2 4) with
    | some h, some m => some { hours := h, minutes := m }
    | _, _ => none
  else if s.length = 5 then
    match parseU8 (sliceChars s 0 2), parseU8 (sliceChars s 3 5) with
    | some h, some m => some { hours := h, minutes := m }
    | _, _ => none
  else none

/-- `struct Date { year: u16, month: u8, day: u8 }` from src/bot.rs. -/
structure Date where
  year : Nat
  month : Nat
  day : Nat
deriving DecidableEq, Repr

/-- `month_from_str` from src/bot.rs. -/
def month_from_str (s : List Char) : Option Nat :=
  if s = "JAN".toList then some 1
  else if s = "FEB".toList then some 2
  else if s = "MAR".toList then some 3
  else if s = "APR".toList then some 4
  else if s = "MAY".toList then some 5
  else if s = "JUN".toList then some 6
  else if s = "JUL".toList then some 7
  else if s = "AUG".toList then some 8
  else if s = "SEP".toList then some 9
  else if s = "OCT".toList then some 10
  else if s = "NOV".toList then some 11
  else if s = "DEC".toList then some 12
  else none

/-- `impl FromStr for Date` from src/bot.rs: a 5-character `DDMON` token;
    the year is the fixed default 2025. -/
def Date.from_str (s : List Char) : Option Date :=
  if s.length ≠ 5 then none
  else do
    let m ← month_from_str (sliceChars s 2 5)
    let d ← parseU8 (sliceChars s 0 2)
    pure { year := 2025, month := m, day := d }

/-- Rust's derived lexicographic `<` on `Date` (year, month, day). -/
def Date.ltb (a b : Date) : Bool :=
  Nat.blt a.year b.year ||
    (Nat.beq a.year b.year &&
      (Nat.blt a.month b.month ||
        (Nat.beq a.month b.month && Nat.blt a.day b.day)))

/-- Rust's derived lexicographic `<=` on `Date`. -/
def Date.leb (a b : Date) : Bool := Date.ltb a b || decide (a = b)

/-- `enum Op` from src/bot.rs. -/
inductive Op where
  | Eq | NEq | Lt | LtEq | GtEq | Gt
deriving DecidableEq, Repr

/-- `enum Field` from src/bot.rs. -/
inductive Field where
  | Report | Depart | Arrive | Block | Credit
deriving DecidableEq, Repr

/-- `enum BotAction` from src/bot.rs, `#[repr(u8)]` with explicit
    discriminants 1..4. -/
inductive BotAction where
  | Nothing | Alert | Pickup | Ignore
deriving DecidableEq, Repr, Fintype

/-- The declared numeric discriminant of a `BotAction` (`Nothing = 1`,
    `Alert = 2`, `Pickup = 3`, `Ignore = 4`), i.e. `action as u8`. -/
def BotAction.disc : BotAction → Nat
  | .Nothing => 1
  | .Alert => 2
  | .Pickup => 3
  | .Ignore => 4

/-- `enum Filter` from src/bot.rs. -/
inductive Filter where
  | TimeDiff (lhs rhs : Field) (op : Op) (t : Time)
  | FieldIs (f : Field) (op : Op) (t : Time)
  | DateIs (op : Op) (d : Date)
  | IncludeLayover (s : String)
  | ExcludeLayover (s : String)
  | NumDays (op : Op) (n : Nat)
  | IsPrem
  | IncludeId (s : String)
deriving DecidableEq, Repr

/-- `enum FilterType` from src/bot.rs. -/
inductive FilterType where
  | NewFilter | TimeDiff | FieldIs | DateIs | IncludeLayover
  | ExcludeLayover | NumDays | IsPrem | IncludeId
deriving DecidableEq, Repr

/-- `struct Trip` from src/bot.rs. -/
structure Trip where
  id : String
  date : Date
  days : Nat
  report : Time
  depart : Time
  arrive : Time
  block : Time
  credit : Time
  layovers : List String
  premium : Bool
deriving DecidableEq, Repr

/-- `Trip::get` from src/bot.rs. -/
def Trip.get (t : Trip) : Field → Time
  | .Report => t.report
  | .Depart => t.depart
  | .Arrive => t.arrive
  | .Block => t.block
  | .Credit => t.credit

/-- `Filter::eval` from src/bot.rs.  Time subtraction is the release-build
    `Time.sub`; comparisons are the derived lexicographic orders. -/
def Filter.eval (f : Filter) (t : Trip) : Bool :=
  match f with
  | .TimeDiff lhs rhs op val =>
    match op with
    | .Eq => Time.sub (t.get lhs) (t.get rhs) == val
    | .NEq => Time.sub (t.get lhs) (t.get rhs) != val
    | .Lt => Time.ltb (Time.sub (t.get lhs) (t.get rhs)) val
    | .LtEq => Time.leb (Time.sub (t.get lhs) (t.get rhs)) val
    | .Gt => Time.ltb val (Time.sub (t.get lhs) (t.get rhs))
    | .GtEq => Time.leb val (Time.sub (t.get lhs) (t.get rhs))
  | .FieldIs field op val =>
    match op with
    | .Eq => t.get field == val
    | .NEq => t.get field != val
    | .Lt => Time.ltb (t.get field) val
    | .LtEq => Time.leb (t.get field) val
    | .Gt => Time.ltb val (t.get field)
    | .GtEq => Time.leb val (t.get field)
  | .DateIs op val =>
    match op with
    | .Eq => t.date == val
    | .NEq => t.date != val
    | .Lt => Date.ltb t.date val
    | .LtEq => Date.leb t.date val
    | .Gt => Date.ltb val t.date
    | .GtEq => Date.leb val t.date
  | .IncludeLayover val => t.layovers.contains val
  | .ExcludeLayover val => !(t.layovers.contains val)
  | .NumDays op val =>
    match op with
    | .Eq => t.days == val
    | .NEq => t.days != val
    | .Lt => Nat.blt t.days val
    | .LtEq => Nat.ble t.days val
    | .Gt => Nat.blt val t.days
    | .GtEq => Nat.ble val t.days
  | .IsPrem => t.premium
  | .IncludeId val => t.id == val

/-- `impl From<FilterType> for Filter` from src/bot.rs; the `NewFilter`
    `panic!` is modelled as `none`.  Note the `IncludeId` arm of the source
    builds `Filter::IncludeLayover(String::new())`. -/
def Filter.fromType : FilterType → Option Filter
  | .NewFilter => none
  | .TimeDiff => some (.TimeDiff .Report .Report .Eq Time.default)
  | .FieldIs => some (.FieldIs .Report .Eq Time.default)
  | .DateIs => some (.DateIs .Eq { year := 2025, month := 1, day := 1 })
  | .IncludeLayover => some (.IncludeLayover "")
  | .ExcludeLayover => some (.ExcludeLayover "")
  | .NumDays => some (.NumDays .Eq 1)
  | .IsPrem => some .IsPrem
  | .IncludeId => some (.IncludeLayover "")

/-- `struct Rule` from src/bot.rs. -/
structure Rule where
  name : String
  filters : List Filter
  action : BotAction
deriving DecidableEq, Repr

/-- The filter loop of `Rule::eval`: stop with `false` at the first failing
    filter, `true` if every filter passes. -/
def evalFilters : List Filter → Trip → Bool
  | [], _ => true
  | f :: fs, t => if f.eval t then evalFilters fs t else false

/-- `Rule::eval` from src/bot.rs. -/
def Rule.eval (r : Rule) (t : Trip) : Bool := evalFilters r.filters t

/-- The filter loop of `Rule::eval` instrumented with its diagnostic: which
    filter the `println!` reports when the rule fails. -/
def evalDiag : List Filter → Trip → Bool × Option Filter
  | [], _ => (true, none)
  | f :: fs, t => if f.eval t then evalDiag fs t else (false, some f)

/-- `Rule::get_action` from src/bot.rs. -/
def Rule.get_action (r : Rule) (t : Trip) : BotAction :=
  if r.eval t then r.action else .Nothing

/-- The fold combinator of the `filtered_trips` computation in `bot_thread`:
    `|a, b| if b as u8 > a as u8 { b } else { a }`. -/
def actMax (a b : BotAction) : BotAction := if b.disc > a.disc then b else a

/-- The per-trip action resolution of `bot_thread`:
    `rules.iter().map(|r| r.get_action(t)).fold(BotAction::Nothing, ...)`. -/
def effectiveAction (rules : List Rule) (t : Trip) : BotAction :=
  (rules.map (fun r => r.get_action t)).foldl actMax .Nothing

/-- `filtered_trips` of `bot_thread`: each trip paired with its resolved
    action (here action first, id second, as in the source tuple). -/
def filteredTrips (rules : List Rule) (trips : List Trip) : List (BotAction × String) :=
  trips.map (fun t => (effectiveAction rules t, t.id))

/-- The worker states used by `bot_thread` (`AppState` in src/main.rs; the
    `Alerting` variant is the one `bot_thread` assigns on an alert). -/
inductive AppState where
  | Stopped | Running | Alerting
deriving DecidableEq, Repr

/-- Observable effects of one iteration of the alert/pickup loop of
    `bot_thread`: running the pickup input sequence for a trip id, playing
    the alert sound, and the two status messages it sends. -/
inductive PassEvent where
  | pickupSeq (id : String)
  | playSound
  | sendStop
  | sendTripFound
deriving DecidableEq, Repr

/-- The body of the `for t in &filtered_trips` loop of `bot_thread`: on
    `Pickup` run the pickup sequence, play the sound, set `Stopped`, send
    `Stop`; on `Alert` play the sound, set `Alerting`, send `TripFound`;
    otherwise do nothing. -/
def scanStep (st : AppState) (a : BotAction) (id : String) : AppState × List PassEvent :=
  if a == .Pickup then (.Stopped, [.pickupSeq id, .playSound, .sendStop])
  else if a == .Alert then (.Alerting, [.playSound, .sendTripFound])
  else (st, [])

/-- The whole `for t in &filtered_trips` loop of `bot_thread`, threading the
    state and collecting the emitted effects in order. -/
def scanPass (st : AppState) : List (BotAction × String) → AppState × List PassEvent
  | [] => (st, [])
  | t :: ts =>
    let r := scanStep st t.1 t.2
    let rest := scanPass r.1 ts
    (rest.1, r.2 ++ rest.2)

/-- The effects the loop body emits for one resolved action, independent of
    the current state. -/
def tripEvents (a : BotAction) (id : String) : List PassEvent :=
  if a == .Pickup then [.pickupSeq id, .playSound, .sendStop]
  else if a == .Alert then [.playSound, .sendTripFound]
  else []

/-- Concatenated effects of a whole pass. -/
def passEvents : List (BotAction × String) → List PassEvent
  | [] => []
  | t :: ts => tripEvents t.1 t.2 ++ passEvents ts

/-- The effective behavior of a resolved action at dispatch: the loop
    dispatches a pickup on `Pickup`, an alert on `Alert`, and nothing
    otherwise. -/
inductive Behavior where
  | doPickup | doAlert | doNothing
deriving DecidableEq, Repr

/-- Which of the three dispatch behaviors a resolved action produces. -/
def behaviorOf (a : BotAction) : Behavior :=
  if a == .Pickup then .doPickup
  else if a == .Alert then .doAlert
  else .doNothing

/-!
A small regular-expression engine with the leftmost-first (Perl-like) match
semantics of the Rust `regex` crate, enough to embed the `re_opentime_trip`
pattern of src/bot.rs.  `bol`/`eol` are the multi-line `^`/`$` that the
source enables with `multi_line(true)`.
-/

/-- Regular-expression syntax: character classes carry their predicate. -/
inductive Re where
  | eps : Re
  | cls : (Char → Bool) → Re
  | seq : Re → Re → Re
  | alt : Re → Re → Re
  | star : Re → Re
  | group : Nat → Re → Re
  | bol : Re
  | eol : Re

/-- Capture list: `(group index, start, stop)`, most recent write first. -/
abbrev Caps := List (Nat × Nat × Nat)

/-- Backtracking matcher in continuation style, returning the first success
    in preference order (alternatives left first, repetition greedy), which
    is the leftmost-first semantics of the Rust `regex` crate.  `fuel` only
    bounds the recursion; it is chosen large enough for the runs below. -/
def reM : Nat → Re → List Char → Nat → Caps →
    (Nat → Caps → Option (Nat × Caps)) → Option (Nat × Caps)
  | 0, _, _, _, _, _ => none
  | Nat.succ fuel, re, s, pos, caps, k =>
    match re with
    | .eps => k pos caps
    | .cls p =>
      match s.get? pos with
      | some c => if p c then k (pos + 1) caps else none
      | none => none
    | .seq a b => reM fuel a s pos caps (fun q cq => reM fuel b s q cq k)
    | .alt a b =>
      match reM fuel a s pos caps k with
      | some r => some r
      | none => reM fuel b s pos caps k
    | .star a =>
      match reM fuel a s pos caps
          (fun q cq => if q == pos then none else reM fuel (.star a) s q cq k) with
      | some r => some r
      | none => k pos caps
    | .group i a => reM fuel a s pos caps (fun q cq => k q ((i, pos, q) :: cq))
    | .bol => if pos == 0 || s.get? (pos - 1) == some '\n' then k pos caps else none
    | .eol => if pos == s.length || s.get? pos == some '\n' then k pos caps else none

/-- Fuel bound for a search over `s`; generous for the pattern sizes used. -/
def reFuel (s : List Char) : Nat := 1000 + 100 * s.length

/-- Leftmost match at or after `start`: try each start position in order. -/
def reFind (re : Re) (s : List Char) : Nat → Nat → Option (Nat × Nat × Caps)
  | 0, _ => none
  | Nat.succ t, start =>
    match reM (reFuel s) re s start [] (fun p cp => some (p, cp)) with
    | some r => some (start, r.1, r.2)
    | none => if start < s.length then reFind re s t (start + 1) else none

/-- `captures_iter`: successive non-overlapping leftmost matches, advancing
    past an empty match by one position. -/
def reCapturesIter (re : Re) (s : List Char) : Nat → Nat → List (Nat × Nat × Caps)
  | 0, _ => []
  | Nat.succ t, start =>
    if start ≤ s.length then
      match reFind re s (s.length + 1 - start) start with
      | none => []
      | some m =>
        m :: reCapturesIter re s t (if m.2.1 == m.1 then m.2.1 + 1 else m.2.1)
    else []

/-- All matches of `re` in `s`, as `(start, stop, captures)` triples. -/
def reAllCaptures (re : Re) (s : List Char) : List (Nat × Nat × Caps) :=
  reCapturesIter re s (s.length + 1) 0

/-- One-or-more, `a+`, as the greedy `a a*`. -/
def Re.plus (a : Re) : Re := .seq a (.star a)

/-- Zero-or-one, `a?`, greedy: try `a` before the empty alternative. -/
def Re.opt (a : Re) : Re := .alt a .eps

/-- Sequence of a list of regular expressions. -/
def Re.sq (l : List Re) : Re := l.foldr .seq .eps

/-- The class `\w`. -/
def reWord : Re := .cls isWordChar

/-- The class `\s`. -/
def reSpace : Re := .cls isSpaceChar

/-- The class `\S`. -/
def reNonSpace : Re := .cls (fun c => !isSpaceChar c)

/-- The class `\d`. -/
def reDigit : Re := .cls isDigitChar

/-- The `re_opentime_trip` pattern of src/bot.rs, groups numbered in source
    order: tripid, date, days, report, depart, arrive, bulk, credit,
    layovers, prem. -/
def re_opentime_trip : Re := Re.sq [
  .bol,
  .group 1 (Re.plus reWord), Re.plus reSpace,
  .group 2 (Re.plus reWord), Re.plus reSpace,
  .group 3 (Re.plus reDigit), Re.plus reSpace,
  .group 4 (Re.plus reNonSpace), Re.plus reSpace,
  .group 5 (Re.plus reNonSpace), Re.plus reSpace,
  .group 6 (Re.plus reNonSpace), Re.plus reSpace,
  .group 7 (Re.plus reDigit), Re.plus reSpace,
  .group 8 (Re.plus reDigit), Re.plus reSpace,
  .group 9 (.star (Re.sq [reNonSpace, reNonSpace, reNonSpace, .star reSpace])),
  .star reSpace,
  .group 10 (Re.opt (.cls (fun c => c == 'X'))),
  .star reSpace,
  .eol ]

/-- Text of a capture group: the slice between its recorded bounds. -/
def groupText (s : List Char) (cp : Caps) (i : Nat) : Option (List Char) :=
  match cp.find? (fun e => e.1 == i) with
  | some e => some (sliceChars s e.2.1 e.2.2)
  | none => none

/-- `str::split_whitespace`, skipping empty fragments. -/
def splitWhitespace : List Char → List Char → List (List Char)
  | [], acc => if acc.isEmpty then [] else [acc.reverse]
  | c :: rest, acc =>
    if isSpaceChar c then
      if acc.isEmpty then splitWhitespace rest []
      else acc.reverse :: splitWhitespace rest []
    else splitWhitespace rest (c :: acc)

/-- The `Trip` construction closure of `bot_thread`, one captured tuple to
    one trip; every `.unwrap()` on a failing field parser is `none`. -/
def tripOfCapture (s : List Char) (cp : Caps) : Option Trip :=
  match groupText s cp 1, groupText s cp 2, groupText s cp 3, groupText s cp 4,
      groupText s cp 5, groupText s cp 6, groupText s cp 7, groupText s cp 8,
      groupText s cp 9, groupText s cp 10 with
  | some tid, some dateS, some daysS, some repS, some depS, some arrS,
      some blkS, some crdS, some layS, some premS =>
    match Date.from_str dateS, parseU8 daysS, Time.from_str repS,
        Time.from_str depS, Time.from_str arrS, Time.from_num_str blkS,
        Time.from_num_str crdS with
    | some date, some days, some report, some depart, some arrive, some block,
        some credit =>
      some { id := String.mk tid, date := date, days := days, report := report,
             depart := depart, arrive := arrive, block := block, credit := credit,
             layovers := (splitWhitespace layS []).map String.mk,
             premium := !premS.isEmpty }
    | _, _, _, _, _, _, _ => none
  | _, _, _, _, _, _, _, _, _, _ => none

/-- The `collect()` of the trip list: one failing record makes the whole
    cycle fail (the source panics out of the worker). -/
def collectTrips (blob : List Char) : List (Nat × Nat × Caps) → Option (List Trip)
  | [] => some []
  | m :: ms =>
    match tripOfCapture blob m.2.2 with
    | none => none
    | some t =>
      match collectTrips blob ms with
      | none => none
      | some ts => some (t :: ts)

/-- The scrape-cycle parse of `bot_thread`: run `re_opentime_trip` over the
    blob with `captures_iter` and build the trip list. -/
def parseTrips (blob : List Char) : Option (List Trip) :=
  collectTrips blob (reAllCaptures re_opentime_trip blob)

/-!
Concrete example values used by the theorems below.
-/

/-- The scenario blob line of the spec (two trailing blanks included). -/
def exLine : List Char := "AB12 15JAN 3 0700 0730 1500 0800 0600 LHR CDG  ".toList

/-- The trip the scenario line describes. -/
def exTrip : Trip :=
  Trip.mk "AB12" (Date.mk 2025 1 15) 3 (Time.mk 7 0) (Time.mk 7 30) (Time.mk 15 0)
    (Time.mk 8 0) (Time.mk 6 0) ["LHR", "CDG"] false

/-- A second trip, differing from `exTrip` only in its id. -/
def exTrip2 : Trip := { exTrip with id := "CD34" }

/-- A blob line whose date token `15JAX` matches `\w+` but fails the month
    parser. -/
def badLine : List Char := "AB12 15JAX 3 0700 0730 1500 0800 0600 LHR  ".toList

/-- The capture triple `re_opentime_trip` produces on `badLine`. -/
def badCapture : Nat × Nat × Caps :=
  (0, 43, [(10, 43, 43), (9, 38, 43), (8, 33, 37), (7, 28, 32), (6, 23, 27),
           (5, 18, 22), (4, 13, 17), (3, 11, 12), (2, 5, 10), (1, 0, 4)])

/-- A rule with no filters whose action is `Pickup`. -/
def rPickupAll : Rule := Rule.mk "p" [] .Pickup

/-- A rule with no filters whose action is `Alert`. -/
def rAlertAll : Rule := Rule.mk "a" [] .Alert

/-- A rule with no filters whose action is `Ignore` (matches every trip). -/
def rIgnoreAll : Rule := Rule.mk "i" [] .Ignore

/-- An `Ignore` rule whose `IsPrem` filter fails on `exTrip`. -/
def rIgnoreNone : Rule := Rule.mk "i2" [Filter.IsPrem] .Ignore

/-- A trip whose id is the empty string and whose layover list does not
    contain the empty string. -/
def tripEmptyId : Trip :=
  Trip.mk "" (Date.mk 2025 1 15) 1 (Time.mk 7 0) (Time.mk 7 30) (Time.mk 15 0)
    (Time.mk 8 0) (Time.mk 6 0) ["LHR"] false

/-!
Claim C1: subtraction without a minute borrow.
-/

/-- Claim C1 as stated is false: with `a.hours >= b.hours` and
    `a.minutes >= b.minutes` the source still computes
    `12 + self.hours - rhs.hours`, so `⟨1,0⟩ - ⟨0,0⟩` is `⟨13,0⟩`, not
    `⟨1,0⟩`. -/
theorem C1_counterexample :
    Time.sub (Time.mk 1 0) (Time.mk 0 0) = Time.mk 13 0 ∧
    Time.sub (Time.mk 1 0) (Time.mk 0 0) ≠ Time.mk (1 - 0) (0 - 0) := by
  decide

/-- Claim C1 (amended): for u8-valued times with `a.hours >= b.hours` and
    `a.minutes >= b.minutes`, `a - b` is
    `{hours: (12 + a.hours - b.hours) mod 256, minutes: a.minutes - b.minutes}`:
    the hour component carries a constant 12-hour offset. -/
theorem C1_sub_no_borrow (a b : Time)
    (ha : a.hours < 256) (hm : a.minutes < 256)
    (hbh : b.hours ≤ a.hours) (hbm : b.minutes ≤ a.minutes) :
    Time.sub a b = Time.mk ((12 + a.hours - b.hours) % 256) (a.minutes - b.minutes) := by
  unfold Time.sub
  rw [if_neg (by omega), if_neg (by omega)]
  simp only [u8wadd, u8wsub, Time.mk.injEq]
  omega

/-- Witness for C1 at `a = 05:30`, `b = 02:10`. -/
theorem C1_sub_no_borrow_witness :
    Time.sub (Time.mk 5 30) (Time.mk 2 10) =
      Time.mk ((12 + 5 - 2) % 256) (30 - 10) :=
  C1_sub_no_borrow (Time.mk 5 30) (Time.mk 2 10) (by decide) (by decide)
    (by decide) (by decide)

/-!
Claim C8: clock-token parsing.
-/

/-- `parse::<u8>` on two decimal digits. -/
theorem parseU8_two_digits (c1 c2 : Char)
    (h1 : isDigitChar c1 = true) (h2 : isDigitChar c2 = true) :
    parseU8 [c1, c2] = some (10 * (c1.toNat - 48) + (c2.toNat - 48)) := by
  have n1 : 48 ≤ c1.toNat ∧ c1.toNat ≤ 57 := by
    simpa [isDigitChar, Bool.and_eq_true, decide_eq_true_eq] using h1
  have n2 : 48 ≤ c2.toNat ∧ c2.toNat ≤ 57 := by
    simpa [isDigitChar, Bool.and_eq_true, decide_eq_true_eq] using h2
  have hplus : (c1 == '+') = false := by
    apply beq_eq_false_iff_ne.mpr
    intro h
    subst h
    simp [isDigitChar] at h1
  simp only [parseU8, hplus, Bool.false_eq_true, if_false, List.isEmpty_cons,
    List.all_cons, List.all_nil, h1, h2, Bool.and_true, if_true, digitsVal,
    List.foldl]
  rw [if_pos (by omega)]
  congr 1
  omega

/-- Claim C8: a 4-character `HHMM` digit token and a 5-character `HH:MM`
    token parse to exactly the encoded `(hours, minutes)` pair, and every
    token whose length is neither 4 nor 5 fails to parse. -/
theorem C8_from_str (s : List Char) :
    (∀ c1 c2 c3 c4, s = [c1, c2, c3, c4] →
      isDigitChar c1 = true → isDigitChar c2 = true →
      isDigitChar c3 = true → isDigitChar c4 = true →
      Time.from_str s = some (Time.mk (10 * (c1.toNat - 48) + (c2.toNat - 48))
        (10 * (c3.toNat - 48) + (c4.toNat - 48)))) ∧
    (∀ c1 c2 c3 c4, s = [c1, c2, ':', c3, c4] →
      isDigitChar c1 = true → isDigitChar c2 = true →
      isDigitChar c3 = true → isDigitChar c4 = true →
      Time.from_str s = some (Time.mk (10 * (c1.toNat - 48) + (c2.toNat - 48))
        (10 * (c3.toNat - 48) + (c4.toNat - 48)))) ∧
    (s.length ≠ 4 → s.length ≠ 5 → Time.from_str s = none) := by
  refine ⟨?_, ?_, ?_⟩
  · intro c1 c2 c3 c4 hs h1 h2 h3 h4
    subst hs
    have e1 : sliceChars [c1, c2, c3, c4] 0 2 = [c1, c2] := rfl
    have e2 : sliceChars [c1, c2, c3, c4] 2 4 = [c3, c4] := rfl
    simp only [Time.from_str, List.length_cons, List.length_nil, if_pos rfl,
      e1, e2, parseU8_two_digits c1 c2 h1 h2, parseU8_two_digits c3 c4 h3 h4]
    norm_num
  · intro c1 c2 c3 c4 hs h1 h2 h3 h4
    subst hs
    have e1 : sliceChars [c1, c2, ':', c3, c4] 0 2 = [c1, c2] := rfl
    have e2 : sliceChars [c1, c2, ':', c3, c4] 3 5 = [c3, c4] := rfl
    have hlen : ([c1, c2, ':', c3, c4].length = 4) = False := by simp
    simp only [Time.from_str, List.length_cons, List.length_nil, hlen,
      if_false, if_pos rfl, e1, e2, parseU8_two_digits c1 c2 h1 h2,
      parseU8_two_digits c3 c4 h3 h4]
    norm_num
  · intro h4 h5
    rw [Time.from_str, if_neg h4, if_neg h5]

/-- Witness for C8: `0730`, `07:30` and a length-3 token. -/
theorem C8_from_str_witness :
    Time.from_str "0730".toList = some (Time.mk 7 30) ∧
    Time.from_str "07:30".toList = some (Time.mk 7 30) ∧
    Time.from_str "123".toList = none := by
  refine ⟨?_, ?_, ?_⟩
  · exact ((C8_from_str "0730".toList).1 '0' '7' '3' '0' rfl (by decide)
      (by decide) (by decide) (by decide)).trans (by decide)
  · exact ((C8_from_str "07:30".toList).2.1 '0' '7' '3' '0' rfl (by decide)
      (by decide) (by decide) (by decide)).trans (by decide)
  · exact (C8_from_str "123".toList).2.2 (by decide) (by decide)

/-!
Claim C9: the `IncludeId` arm of `From<FilterType> for Filter`.
-/

/-- Claim C9: converting the `IncludeId` filter type yields
    `Filter::IncludeLayover("")`, not `Filter::IncludeId("")`, so the
    resulting filter tests layover membership of the empty string — which is
    not an id-equality test, as `tripEmptyId` separates. -/
theorem C9_fromType_IncludeId :
    Filter.fromType FilterType.IncludeId = some (Filter.IncludeLayover "") ∧
    Filter.fromType FilterType.IncludeId ≠ some (Filter.IncludeId "") ∧
    (∀ t : Trip, Filter.eval (Filter.IncludeLayover "") t = t.layovers.contains "") ∧
    Filter.eval (Filter.IncludeLayover "") tripEmptyId = false ∧
    (tripEmptyId.id == "") = true := by
  refine ⟨rfl, by decide, fun t => rfl, by decide, by decide⟩

/-!
Claim C10: partiality of time subtraction under checked u8 arithmetic.
-/

/-- The hour expression of the source's rollover (else) branch,
    `12 + self.hours - rhs.hours` with one more `- 1` under a borrow. -/
def Time.subHoursRollover (borrow : Bool) (sh rh : Nat) : Except U8Err Nat :=
  if borrow then do
    let x ← u8cadd 12 sh
    let y ← u8csub x rh
    u8csub y 1
  else do
    let x ← u8cadd 12 sh
    u8csub x rh

/-- Bind on a success, definitionally. -/
theorem excBindOk (a : α) (f : α → Except U8Err β) : (Except.ok a >>= f) = f a := rfl

/-- Bind on an error, definitionally. -/
theorem excBindErr (e : U8Err) (f : α → Except U8Err β) :
    ((Except.error e : Except U8Err α) >>= f) = Except.error e := rfl

/-- The hour computation underflows whenever `rh > sh`. -/
theorem subHours_underflow (borrow : Bool) (sh rh : Nat) (h : rh > sh) :
    Time.subHours borrow sh rh = .error .underflow := by
  have hcs : u8csub sh rh = Except.error U8Err.underflow := by
    simp [u8csub, Nat.not_le.mpr h]
  unfold Time.subHours
  rw [if_pos h]
  cases borrow <;> rw [hcs] <;> rfl

/-- Claim C10: time subtraction is partial.  Whenever `b.hours > a.hours`
    the hour computation performs the u8 subtraction `a.hours - b.hours`
    (then `- 1` more in the borrow case) and underflows, so the whole
    subtraction panics; the hour subtraction is free of underflow exactly
    under `a.hours >= b.hours`, and under that precondition the underflowing
    branch is unreachable — the hour expression is the rollover branch. -/
theorem C10_sub_underflow_cases (a b : Time) (borrow : Bool) :
    (b.hours > a.hours → Time.subChecked a b = .error .underflow) ∧
    (b.hours > a.hours → Time.subHours borrow a.hours b.hours = .error .underflow) ∧
    (a.hours ≥ b.hours → Time.subHours borrow a.hours b.hours ≠ .error U8Err.underflow) ∧
    (a.hours ≥ b.hours → Time.subHours borrow a.hours b.hours =
      Time.subHoursRollover borrow a.hours b.hours) := by
  refine ⟨?_, ?_, ?_, ?_⟩
  · intro h
    unfold Time.subChecked
    split <;> rw [subHours_underflow _ _ _ h] <;> rfl
  · intro h
    exact subHours_underflow _ _ _ h
  · intro h
    unfold Time.subHours
    rw [if_neg (by omega)]
    have hok : 12 + a.hours ≤ 255 → u8cadd 12 a.hours = Except.ok (12 + a.hours) := by
      intro hov
      simp [u8cadd, hov]
    have hovf : ¬(12 + a.hours ≤ 255) → u8cadd 12 a.hours = Except.error U8Err.overflow := by
      intro hov
      simp [u8cadd, hov]
    have h1 : u8csub (12 + a.hours) b.hours = Except.ok (12 + a.hours - b.hours) := by
      rw [u8csub, if_pos (by omega)]
    have h2 : u8csub (12 + a.hours - b.hours) 1 = Except.ok (12 + a.hours - b.hours - 1) := by
      rw [u8csub, if_pos (by omega)]
    cases borrow
    · rw [if_neg (by simp)]
      by_cases hov : 12 + a.hours ≤ 255
      · rw [hok hov, excBindOk, h1]
        simp
      · rw [hovf hov, excBindErr]
        simp
    · rw [if_pos rfl]
      by_cases hov : 12 + a.hours ≤ 255
      · rw [hok hov, excBindOk, h1, excBindOk, h2]
        simp
      · rw [hovf hov, excBindErr]
        simp
  · intro h
    unfold Time.subHours Time.subHoursRollover
    rw [if_neg (by omega)]

/-- Witness for C10: `03:00 - 05:00` underflows; with the operands swapped
    the hour computation does not underflow and takes the rollover branch. -/
theorem C10_sub_underflow_cases_witness :
    Time.subChecked (Time.mk 3 0) (Time.mk 5 0) = .error .underflow ∧
    Time.subHours true 5 3 ≠ .error U8Err.underflow ∧
    Time.subHours false 5 3 = Time.subHoursRollover false 5 3 :=
  ⟨(C10_sub_underflow_cases (Time.mk 3 0) (Time.mk 5 0) true).1 (by decide),
   (C10_sub_underflow_cases (Time.mk 5 0) (Time.mk 3 0) true).2.2.1 (by decide),
   (C10_sub_underflow_cases (Time.mk 5 0) (Time.mk 3 0) false).2.2.2 (by decide)⟩

/-!
Claim C7: rule evaluation and action lookup.
-/

/-- If every filter passes, the loop returns `true`. -/
theorem evalFilters_of_all (fs : List Filter) (t : Trip)
    (h : ∀ f ∈ fs, f.eval t = true) : evalFilters fs t = true := by
  induction fs with
  | nil => rfl
  | cons f fs ih =>
    rw [evalFilters, if_pos (h f (List.mem_cons_self f fs))]
    exact ih fun g hg => h g (List.mem_cons_of_mem f hg)

/-- If every filter before `f` passes and `f` fails, the loop returns
    `false` and the diagnostic reports `f`. -/
theorem evalFilters_first_fail (fs1 : List Filter) (f : Filter) (fs2 : List Filter)
    (t : Trip) (hpass : ∀ g ∈ fs1, g.eval t = true) (hf : f.eval t = false) :
    evalFilters (fs1 ++ f :: fs2) t = false ∧
    evalDiag (fs1 ++ f :: fs2) t = (false, some f) := by
  induction fs1 with
  | nil =>
    simp only [List.nil_append]
    rw [evalFilters, if_neg (by simp [hf]), evalDiag, if_neg (by simp [hf])]
    exact ⟨rfl, rfl⟩
  | cons g gs ih =>
    have hg : g.eval t = true := hpass g (List.mem_cons_self g gs)
    have ih2 := ih fun x hx => hpass x (List.mem_cons_of_mem g hx)
    simp only [List.cons_append]
    rw [evalFilters, if_pos hg, evalDiag, if_pos hg]
    exact ih2

/-- Claim C7: `Rule::eval` is the short-circuit AND of its filters in
    declared order (true when all pass, false at the first failing filter,
    which is the one reported), a rule with no filters evaluates true, and
    `get_action` returns the configured action exactly when `eval` is true
    and `Nothing` otherwise. -/
theorem C7_rule_eval (r : Rule) (t : Trip) :
    ((∀ f ∈ r.filters, f.eval t = true) → r.eval t = true) ∧
    (∀ fs1 f fs2, r.filters = fs1 ++ f :: fs2 →
      (∀ g ∈ fs1, g.eval t = true) → f.eval t = false →
      r.eval t = false ∧ evalDiag r.filters t = (false, some f)) ∧
    (r.filters = [] → r.eval t = true) ∧
    (r.eval t = true → r.get_action t = r.action) ∧
    (r.eval t = false → r.get_action t = BotAction.Nothing) := by
  refine ⟨?_, ?_, ?_, ?_, ?_⟩
  · exact fun h => evalFilters_of_all r.filters t h
  · intro fs1 f fs2 hsplit hpass hf
    rw [Rule.eval, hsplit]
    exact evalFilters_first_fail fs1 f fs2 t hpass hf
  · intro h
    rw [Rule.eval, h]
    rfl
  · intro h
    rw [Rule.get_action, if_pos h]
  · intro h
    rw [Rule.get_action, if_neg (by simp [h])]

/-- Witness for C7: an empty rule evaluates true on `exTrip` and yields its
    action; a rule whose single `IsPrem` filter fails reports that filter. -/
theorem C7_rule_eval_witness :
    Rule.eval (Rule.mk "e" [] BotAction.Alert) exTrip = true ∧
    (Rule.eval (Rule.mk "w" [Filter.IsPrem] BotAction.Alert) exTrip = false ∧
      evalDiag [Filter.IsPrem] exTrip = (false, some Filter.IsPrem)) ∧
    Rule.get_action (Rule.mk "e" [] BotAction.Alert) exTrip = BotAction.Alert := by
  refine ⟨?_, ?_, ?_⟩
  · exact (C7_rule_eval (Rule.mk "e" [] BotAction.Alert) exTrip).2.2.1 rfl
  · exact (C7_rule_eval (Rule.mk "w" [Filter.IsPrem] BotAction.Alert) exTrip).2.1
      [] Filter.IsPrem [] rfl (by simp) (by decide)
  · exact (C7_rule_eval (Rule.mk "e" [] BotAction.Alert) exTrip).2.2.2.1
      ((C7_rule_eval (Rule.mk "e" [] BotAction.Alert) exTrip).2.2.1 rfl)

/-!
Claims C2 and C3: priority resolution across rules.
-/

/-- Appending one rule folds its resolved action on the right. -/
theorem effectiveAction_append_single (rules : List Rule) (r : Rule) (t : Trip) :
    effectiveAction (rules ++ [r]) t =
      actMax (effectiveAction rules t) (r.get_action t) := by
  simp [effectiveAction, List.map_append, List.foldl_append]

/-- `Nothing` is a right identity of the fold combinator. -/
theorem actMax_nothing_right : ∀ a, actMax a BotAction.Nothing = a := by decide

/-- `Ignore` has the numerically largest discriminant, so it absorbs. -/
theorem actMax_ignore_right : ∀ a, actMax a BotAction.Ignore = BotAction.Ignore := by
  decide

/-- Claim C2 as stated is false: appending a matching `Ignore` rule to a
    rule set whose only rule is a matching `Pickup` rule changes the
    dispatch behavior from pickup to nothing, because `Ignore as u8 = 4`
    beats `Pickup as u8 = 3` in the fold. -/
theorem C2_counterexample :
    rPickupAll.action ≠ BotAction.Ignore ∧
    behaviorOf (effectiveAction [rPickupAll] exTrip) = Behavior.doPickup ∧
    behaviorOf (effectiveAction ([rPickupAll] ++ [rIgnoreAll]) exTrip) =
      Behavior.doNothing := by
  decide

/-- Claim C2 (amended): appending an `Ignore` rule whose filters do not
    match the trip leaves the dispatch behavior unchanged; appending one
    whose filters match forces the resolved action to `Ignore`, whose
    behavior is nothing (suppressing any Pickup or Alert). -/
theorem C2_ignore_append (t : Trip) (rules : List Rule) (r : Rule)
    (hr : r.action = BotAction.Ignore) :
    (r.eval t = false →
      behaviorOf (effectiveAction (rules ++ [r]) t) =
        behaviorOf (effectiveAction rules t)) ∧
    (r.eval t = true →
      effectiveAction (rules ++ [r]) t = BotAction.Ignore ∧
      behaviorOf (effectiveAction (rules ++ [r]) t) = Behavior.doNothing) := by
  constructor
  · intro he
    rw [effectiveAction_append_single, Rule.get_action, if_neg (by simp [he]),
      actMax_nothing_right]
  · intro he
    rw [effectiveAction_append_single, Rule.get_action, if_pos he, hr,
      actMax_ignore_right]
    exact ⟨rfl, rfl⟩

/-- Witness for C2: a matching `Ignore` rule appended to `[rPickupAll]`
    forces `Ignore`/no dispatch; a non-matching one leaves the behavior
    alone. -/
theorem C2_ignore_append_witness :
    (effectiveAction ([rPickupAll] ++ [rIgnoreAll]) exTrip = BotAction.Ignore ∧
      behaviorOf (effectiveAction ([rPickupAll] ++ [rIgnoreAll]) exTrip) =
        Behavior.doNothing) ∧
    behaviorOf (effectiveAction ([rPickupAll] ++ [rIgnoreNone]) exTrip) =
      behaviorOf (effectiveAction [rPickupAll] exTrip) :=
  ⟨(C2_ignore_append exTrip [rPickupAll] rIgnoreAll rfl).2 (by decide),
   (C2_ignore_append exTrip [rPickupAll] rIgnoreNone rfl).1 (by decide)⟩

/-- The fold combinator commutes in its right arguments. -/
theorem actMax_rcomm : ∀ z x y, actMax (actMax z x) y = actMax (actMax z y) x := by
  decide

/-- The fold result bounds the seed and every element, by discriminant. -/
theorem foldl_actMax_ub (l : List BotAction) (init : BotAction) :
    init.disc ≤ (l.foldl actMax init).disc ∧
    ∀ x ∈ l, x.disc ≤ (l.foldl actMax init).disc := by
  induction l generalizing init with
  | nil => simp
  | cons a l ih =>
    obtain ⟨h1, h2⟩ := ih (actMax init a)
    have hL : ∀ p q : BotAction, p.disc ≤ (actMax p q).disc := by decide
    have hR : ∀ p q : BotAction, q.disc ≤ (actMax p q).disc := by decide
    refine ⟨le_trans (hL init a) h1, ?_⟩
    intro x hx
    rcases List.mem_cons.mp hx with rfl | hx
    · exact le_trans (hR init x) h1
    · exact h2 x hx

/-- The fold result is the seed or one of the elements. -/
theorem foldl_actMax_mem (l : List BotAction) (init : BotAction) :
    l.foldl actMax init = init ∨ l.foldl actMax init ∈ l := by
  induction l generalizing init with
  | nil => simp
  | cons a l ih =>
    have hcase : ∀ p q : BotAction, actMax p q = p ∨ actMax p q = q := by decide
    rw [List.foldl_cons]
    rcases ih (actMax init a) with h | h
    · rw [h]
      rcases hcase init a with h2 | h2
      · exact Or.inl h2
      · right
        rw [h2]
        exact List.mem_cons_self a l
    · right
      exact List.mem_cons_of_mem a h

/-- The resolved action is invariant under permutation of the rule list. -/
theorem effectiveAction_perm (t : Trip) {l1 l2 : List Rule} (h : l1.Perm l2) :
    effectiveAction l1 t = effectiveAction l2 t := by
  unfold effectiveAction
  exact (h.map (fun r => r.get_action t)).foldl_eq'
    (fun x _ y _ z => actMax_rcomm z x y) BotAction.Nothing

/-- Claim C3 as stated is false for rule sets that contain an `Ignore`
    rule: with matching Alert, Pickup and Ignore rules the fold yields
    `Ignore`, not `Pickup`. -/
theorem C3_counterexample :
    rAlertAll.eval exTrip = true ∧ rAlertAll.action = BotAction.Alert ∧
    rPickupAll.eval exTrip = true ∧ rPickupAll.action = BotAction.Pickup ∧
    effectiveAction [rAlertAll, rPickupAll, rIgnoreAll] exTrip = BotAction.Ignore ∧
    effectiveAction [rAlertAll, rPickupAll, rIgnoreAll] exTrip ≠ BotAction.Pickup := by
  decide

/-- Claim C3 (amended): for rule sets whose actions avoid the fourth
    (`Ignore`) value, the resolved action is the maximum-priority
    `get_action` result (it bounds every result and is `Nothing` or one of
    them), it is invariant under permutation of the rules, and matching
    Alert and Pickup rules resolve to `Pickup`. -/
theorem C3_priority_max (t : Trip) (rules : List Rule)
    (hIgn : ∀ r ∈ rules, r.action ≠ BotAction.Ignore) :
    (∀ r ∈ rules, (r.get_action t).disc ≤ (effectiveAction rules t).disc) ∧
    (effectiveAction rules t = BotAction.Nothing ∨
      ∃ r ∈ rules, r.get_action t = effectiveAction rules t) ∧
    (∀ rules2, rules.Perm rules2 →
      effectiveAction rules2 t = effectiveAction rules t) ∧
    (∀ r1 ∈ rules, ∀ r2 ∈ rules, r1.eval t = true → r1.action = BotAction.Alert →
      r2.eval t = true → r2.action = BotAction.Pickup →
      effectiveAction rules t = BotAction.Pickup) := by
  have hub := foldl_actMax_ub (rules.map (fun r => r.get_action t)) BotAction.Nothing
  have hmem := foldl_actMax_mem (rules.map (fun r => r.get_action t)) BotAction.Nothing
  refine ⟨?_, ?_, ?_, ?_⟩
  · intro r hr
    exact hub.2 (r.get_action t) (List.mem_map_of_mem (fun r => r.get_action t) hr)
  · rcases hmem with h | h
    · exact Or.inl h
    · right
      obtain ⟨r, hr, he⟩ := List.mem_map.mp h
      exact ⟨r, hr, he⟩
  · intro rules2 h2
    exact effectiveAction_perm t h2.symm
  · intro r1 hr1 r2 hr2 he1 ha1 he2 ha2
    have hup : (r2.get_action t).disc ≤ (effectiveAction rules t).disc :=
      hub.2 (r2.get_action t) (List.mem_map_of_mem (fun r => r.get_action t) hr2)
    have hp : r2.get_action t = BotAction.Pickup := by
      rw [Rule.get_action, if_pos he2, ha2]
    rw [hp] at hup
    have hle : (effectiveAction rules t).disc ≤ 3 := by
      rcases hmem with h | h
      · rw [effectiveAction] at *
        rw [h]
        decide
      · obtain ⟨r, hr, he⟩ := List.mem_map.mp h
        have hra := hIgn r hr
        have hcases : r.get_action t = r.action ∨ r.get_action t = BotAction.Nothing := by
          rw [Rule.get_action]
          split
          · exact Or.inl rfl
          · exact Or.inr rfl
        have hd3 : ∀ a : BotAction, a ≠ BotAction.Ignore → a.disc ≤ 3 := by decide
        rw [effectiveAction, ← he]
        rcases hcases with hc | hc
        · rw [hc]
          exact hd3 r.action hra
        · rw [hc]
          decide
    have hdisc : (effectiveAction rules t).disc = 3 := le_antisymm hle hup
    have hback : ∀ a : BotAction, a.disc = 3 → a = BotAction.Pickup := by decide
    exact hback _ hdisc

/-- Witness for C3 at a concrete two-rule set. -/
theorem C3_priority_max_witness :
    effectiveAction [rAlertAll, rPickupAll] exTrip = BotAction.Pickup :=
  (C3_priority_max exTrip [rAlertAll, rPickupAll] (by decide)).2.2.2
    rAlertAll (by simp) rPickupAll (by simp) (by decide) rfl (by decide) rfl

/-!
Claim C4: dispatch within one scrape pass.
-/

/-- The effects of one loop iteration do not depend on the current state. -/
theorem scanStep_events (st : AppState) (a : BotAction) (id : String) :
    (scanStep st a id).2 = tripEvents a id := by
  cases a <;> rfl

/-- Claim C4 as stated is false: with two trips both resolving to `Pickup`,
    the state is already `Stopped` after the first, yet the pass still runs
    the pickup sequence for the second. -/
theorem C4_counterexample :
    (scanPass AppState.Running (filteredTrips [rPickupAll] [exTrip])).1 =
      AppState.Stopped ∧
    (scanPass AppState.Running (filteredTrips [rPickupAll] [exTrip, exTrip2])).2 =
      [PassEvent.pickupSeq "AB12", PassEvent.playSound, PassEvent.sendStop,
       PassEvent.pickupSeq "CD34", PassEvent.playSound, PassEvent.sendStop] := by
  decide

/-- Claim C4 (amended): the loop body never consults the state, so a pass
    emits the dispatch effects of every trip whose resolved action is
    `Pickup` or `Alert` — later trips re-trigger even after the state has
    left `Running`. -/
theorem C4_pass_events (st : AppState) (ts : List (BotAction × String)) :
    (scanPass st ts).2 = passEvents ts := by
  induction ts generalizing st with
  | nil => rfl
  | cons t ts ih =>
    show ((scanPass (scanStep st t.1 t.2).1 ts).1,
      (scanStep st t.1 t.2).2 ++ (scanPass (scanStep st t.1 t.2).1 ts).2).2 = _
    rw [passEvents]
    simp only [scanStep_events, ih]

/-!
Claim C5: the scenario blob line.
-/

/-- Claim C5: the scenario line parses to exactly one trip, with id `AB12`,
    date 15 JAN 2025, 3 days, report 07:00, depart 07:30, arrive 15:00,
    block 08:00, credit 06:00, layovers LHR and CDG, and premium false. -/
theorem C5_scenario_line : parseTrips exLine = some [exTrip] := by decide

/-!
Claim C6: a field-parse failure is fatal to the whole cycle.
-/

/-- One failing record makes `collectTrips` fail. -/
theorem collectTrips_none (blob : List Char) (ms : List (Nat × Nat × Caps))
    (m : Nat × Nat × Caps) (hm : m ∈ ms)
    (hf : tripOfCapture blob m.2.2 = none) : collectTrips blob ms = none := by
  induction ms with
  | nil => cases hm
  | cons x ms ih =>
    rcases List.mem_cons.mp hm with rfl | hm2
    · rw [collectTrips, hf]
    · rw [collectTrips]
      cases hx : tripOfCapture blob x.2.2 with
      | none => rfl
      | some tr => rw [ih hm2]

/-- Claim C6: if any captured record of the blob fails one of its field
    parsers, the whole scrape cycle produces no trip list (the source
    panics out of the worker on the `.unwrap()`). -/
theorem C6_parse_failure_fatal (blob : List Char) (m : Nat × Nat × Caps)
    (hm : m ∈ reAllCaptures re_opentime_trip blob)
    (hf : tripOfCapture blob m.2.2 = none) :
    parseTrips blob = none :=
  collectTrips_none blob (reAllCaptures re_opentime_trip blob) m hm hf

/-- Witness for C6: `badLine` matches the trip pattern, its date token
    `15JAX` fails the month parser, and the cycle yields no trip list. -/
theorem C6_parse_failure_fatal_witness : parseTrips badLine = none :=
  C6_parse_failure_fatal badLine badCapture (by decide) (by decide)

end HC
